import Mathlib

/-!
Shallow embedding of the rnagit terminal dashboard (src/main.rs).

The program is a single event-driven refresh/render loop over a git
repository.  The embedding below translates the data model and the
operations of main.rs into Lean: the git collaborator (git2) is modelled
by the values the program observes from it (a `Repo` record of query
results), fallible calls return `Except`/`Option`, and every Rust
`unwrap()` on a value that can be absent is modelled by returning `none`
(a panic of the whole pass).  The event loop is modelled as a function
from the list of channel events (paired with the terminal size queried
at the top of each iteration) to a trace of terminal-backend actions and
a final application state.
-/

namespace Rnagit

/-- Raw per-path status flag set: the git2 `Status` bitset received from
the collaborator.  Fields are the individual bits (main.rs imports the
index/worktree/ignored constants on lines 22-26; `conflicted` and
`wt_unreadable` are the remaining bits of the same bitset, which the
program never tests). -/
structure Status where
  ignored : Bool
  conflicted : Bool
  wt_unreadable : Bool
  index_new : Bool
  index_modified : Bool
  index_deleted : Bool
  index_renamed : Bool
  index_typechange : Bool
  wt_new : Bool
  wt_modified : Bool
  wt_deleted : Bool
  wt_renamed : Bool
  wt_typechange : Bool
  deriving DecidableEq

/-- Mirrors line 219 of main.rs: stat.intersects of the five index-level
constants (STATUS_INDEX_TYPECHANGE, STATUS_INDEX_NEW,
STATUS_INDEX_MODIFIED, STATUS_INDEX_DELETED, STATUS_INDEX_RENAMED). -/
def Status.indexAny (s : Status) : Bool :=
  s.index_typechange || s.index_new || s.index_modified || s.index_deleted || s.index_renamed

/-- Mirrors line 224 of main.rs: stat.intersects of the four
working-tree-level constants other than STATUS_WT_NEW. -/
def Status.wtChange (s : Status) : Bool :=
  s.wt_typechange || s.wt_modified || s.wt_deleted || s.wt_renamed

/-- The display category a non-dropped status entry is classified into. -/
inductive Category where
  | Staged
  | Unstaged
  | Untracked
  deriving DecidableEq

/-- Per-entry classification decision of the status loop in main.rs
lines 214-231: ignored entries are dropped (continue, line 215-217),
then the index-level test (line 219), the working-tree test (line 224),
and the worktree-new test (line 229); an entry matching none of the
branches is pushed into no list, i.e. dropped. -/
def classify (s : Status) : Option Category :=
  if s.ignored then none
  else if s.indexAny then some Category.Staged
  else if s.wtChange then some Category.Unstaged
  else if s.wt_new then some Category.Untracked
  else none

/-- One status entry as yielded by the collaborator: the path is
optional because git2 path() returns an Option (undecodable paths). -/
structure RawStatusEntry where
  path : Option String
  status : Status
  deriving DecidableEq

/-- StatusEntry of main.rs lines 39-42. -/
structure StatusEntry where
  path : String
  status : Status
  deriving DecidableEq

/-- The status classification loop of main.rs lines 213-232, producing
the (staged, unstaged, untracked) lists.  The path unwrap on line 218
panics when the path is absent; this aborts the whole pass and is
modelled by `none`. -/
def classifyEntries : List RawStatusEntry → Option (List StatusEntry × List StatusEntry × List String)
  | [] => some ([], [], [])
  | e :: rest =>
    if e.status.ignored then
      classifyEntries rest
    else
      match e.path with
      | none => none
      | some p =>
        match classifyEntries rest with
        | none => none
        | some (staged, unstaged, untracked) =>
          if e.status.indexAny then
            some ({ path := p, status := e.status } :: staged, unstaged, untracked)
          else if e.status.wtChange then
            some (staged, { path := p, status := e.status } :: unstaged, untracked)
          else if e.status.wt_new then
            some (staged, unstaged, p :: untracked)
          else
            some (staged, unstaged, untracked)

/-- Label prefixed to a staged entry, main.rs lines 285-293 (the
if-chain tests only index modified/deleted/renamed/typechange; no
branch matches index-new, so nothing is pushed before the path). -/
def stagedLabel (s : Status) : String :=
  if s.index_modified then "modified: "
  else if s.index_deleted then "deleted:  "
  else if s.index_renamed then "renamed:  "
  else if s.index_typechange then "typechange:"
  else ""

/-- Label prefixed to an unstaged entry, main.rs lines 269-277. -/
def unstagedLabel (s : Status) : String :=
  if s.wt_modified then "modified: "
  else if s.wt_deleted then "deleted:  "
  else if s.wt_renamed then "renamed:  "
  else if s.wt_typechange then "typechange:"
  else ""

/-- Error value of the git collaborator (only the message is read). -/
structure GitError where
  message : String
  deriving DecidableEq

/-- What the program observes of the reference returned by repo.head():
target() and shorthand() both return options. -/
structure HeadRef where
  target : Option String
  shorthand : Option String
  deriving DecidableEq

/-- What the program observes of a commit: id and optional message. -/
structure Commit where
  id : String
  message : Option String
  deriving DecidableEq

/-- What the program observes of one branch: name() returns a Result of
an Option (absent when the name is not valid UTF-8). -/
structure BranchItem where
  name : Except GitError (Option String)

/-- The git collaborator, modelled by the results of the four queries
the program performs on it. -/
structure Repo where
  head : Except GitError HeadRef
  findCommit : String → Except GitError Commit
  branches : Except GitError (List (Except GitError BranchItem))
  statuses : Except GitError (List RawStatusEntry)

/-- HeadInfo of main.rs lines 33-37. -/
structure HeadInfo where
  ref_name : String
  hash : String
  message : String
  deriving DecidableEq

/-- Head resolution block of main.rs lines 167-185.  repo.head() and
head.target() are unwrapped (lines 168-169): a failure there panics,
modelled by `none`.  The commit lookup is checked with is_ok (line
180), the shorthand with is_some (line 177); commit.message() is
unwrapped (line 182). -/
def resolveHead (repo : Repo) : Option HeadInfo :=
  match repo.head with
  | Except.error _ => none
  | Except.ok head =>
    match head.target with
    | none => none
    | some tgt =>
      let head_commit := repo.findCommit tgt
      let info0 : HeadInfo := { ref_name := "", hash := "", message := "" }
      let info1 :=
        match head.shorthand with
        | some s => { info0 with ref_name := s }
        | none => info0
      match head_commit with
      | Except.error _ => some info1
      | Except.ok c =>
        match c.message with
        | none => none
        | some m => some { info1 with message := m, hash := c.id }

/-- Branch collection loop of main.rs lines 192-198: items that are Err
are skipped (is_ok check, line 193), but the two unwraps on the name
(line 196) panic when the name is Err or absent, modelled by `none`. -/
def collectBranches : List (Except GitError BranchItem) → Option (List String)
  | [] => some []
  | item :: rest =>
    match item with
    | Except.error _ => collectBranches rest
    | Except.ok b =>
      match b.name with
      | Except.error _ => none
      | Except.ok none => none
      | Except.ok (some n) =>
        match collectBranches rest with
        | none => none
        | some names => some (n :: names)

/-- Result of one refresh: the three derived sections, the head info,
and the diagnostic text appended to the frame output. -/
structure RefreshResult where
  head : Option HeadInfo
  branches : List String
  staged : List StatusEntry
  unstaged : List StatusEntry
  untracked : List String
  output : String

/-- Status part of the refresh, main.rs lines 205-238: the three lists
are cleared, then either filled from the enumeration or, on
enumeration error, the error message is appended to the output. -/
def refreshStatusPart (repo : Repo) (hi : HeadInfo) (branchNames : List String)
    (out : String) : Option RefreshResult :=
  match repo.statuses with
  | Except.error e =>
    some { head := some hi, branches := branchNames, staged := [], unstaged := [],
           untracked := [], output := out ++ e.message }
  | Except.ok entries =>
    match classifyEntries entries with
    | none => none
    | some (staged, unstaged, untracked) =>
      some { head := some hi, branches := branchNames, staged := staged,
             unstaged := unstaged, untracked := untracked, output := out }

/-- The refresh body of draw, main.rs lines 164-241: head resolution,
branch enumeration (on error the message is appended to the output and
the branch list stays cleared), then status enumeration. -/
def refreshBody (repo : Repo) : Option RefreshResult :=
  match resolveHead repo with
  | none => none
  | some hi =>
    match repo.branches with
    | Except.error e => refreshStatusPart repo hi [] e.message
    | Except.ok items =>
      match collectBranches items with
      | none => none
      | some names => refreshStatusPart repo hi names ""

/-- Terminal rectangle (tui Rect). -/
structure Rect where
  x : Nat
  y : Nat
  width : Nat
  height : Nat
  deriving DecidableEq

/-- The mutable fields of App, main.rs lines 44-55 (the terminal and
the channel receiver are modelled by the action trace and the event
list of the run function). -/
structure AppState where
  repo : Option Repo
  head : Option HeadInfo
  branches : List String
  untracked : List String
  unstaged : List StatusEntry
  staged : List StatusEntry
  term_size : Rect
  refresh : Bool

/-- App::new, main.rs lines 88-111: all lists empty, no head, refresh
set to true; repo is the result of the open attempt (None when no path
was given or Repository::open failed, lines 106-118). -/
def initApp (repo : Option Repo) (size : Rect) : AppState :=
  { repo := repo, head := none, branches := [], untracked := [], unstaged := [],
    staged := [], term_size := size, refresh := true }

/-- Colorization applied to the head ref name (colored bright_blue). -/
def bright_blue (s : String) : String := "\x1b[94m" ++ s ++ "\x1b[0m"

/-- Lines of a status list with a per-entry label, main.rs lines
268-280 and 284-296. -/
def statusLines (label : Status → String) : List StatusEntry → String
  | [] => ""
  | e :: rest => label e.status ++ e.path ++ "\n" ++ statusLines label rest

/-- Lines of the untracked list, main.rs lines 261-264. -/
def pathLines : List String → String
  | [] => ""
  | p :: rest => p ++ "\n" ++ pathLines rest

/-- Lines of the branch list, main.rs lines 253-257. -/
def branchLines : List String → String
  | [] => ""
  | b :: rest => "\t" ++ b ++ "\n" ++ branchLines rest

/-- Head section, main.rs lines 242-250. -/
def sectionHead : Option HeadInfo → String
  | none => ""
  | some h => "Head: " ++ bright_blue h.ref_name ++ " " ++ h.message ++ "\n"

/-- Branch section, main.rs lines 251-258. -/
def sectionBranches (bs : List String) : String :=
  if bs.isEmpty then "" else "Branches:\n" ++ branchLines bs

/-- Untracked section, main.rs lines 259-265. -/
def sectionUntracked (us : List String) : String :=
  if us.isEmpty then "" else "\nUntracked changes:\n" ++ pathLines us

/-- Unstaged section, main.rs lines 266-281. -/
def sectionUnstaged (l : List StatusEntry) : String :=
  if l.isEmpty then "" else "\nUnstaged changes:\n" ++ statusLines unstagedLabel l

/-- Staged section, main.rs lines 282-297. -/
def sectionStaged (l : List StatusEntry) : String :=
  if l.isEmpty then "" else "\nStaged changes:\n" ++ statusLines stagedLabel l

/-- The full text document of one frame: title, diagnostic notes
accumulated during the refresh (pushed right after the title, lines
163 and 201/235), then the sections in composition order. -/
def buildOutput (notes : String) (a : AppState) : String :=
  "rngit\n" ++ notes ++ sectionHead a.head ++ sectionBranches a.branches
    ++ sectionUntracked a.untracked ++ sectionUnstaged a.unstaged ++ sectionStaged a.staged

/-- App::draw, main.rs lines 156-316, as a state transition plus the
rendered document.  The refresh body runs only when a repository handle
is present and refresh is set (line 164); after it completes the flag
is cleared (line 240).  A panic inside the refresh is `none`. -/
def draw (a : AppState) : Option (AppState × String) :=
  match a.repo with
  | none => some (a, buildOutput "" a)
  | some repo =>
    if a.refresh then
      match refreshBody repo with
      | none => none
      | some r =>
        let a2 := { a with
          head := r.head
          branches := r.branches
          staged := r.staged
          unstaged := r.unstaged
          untracked := r.untracked
          refresh := false }
        some (a2, buildOutput r.output a2)
    else
      some (a, buildOutput "" a)

/-- Key of a keyboard event (termion Key: a character or anything
else). -/
inductive Key where
  | Char (c : Char)
  | Other
  deriving DecidableEq

/-- Event of main.rs lines 28-31. -/
inductive Event where
  | Input (k : Key)
  | Tick
  deriving DecidableEq

/-- Calls made on the terminal backend, for the loop trace. -/
inductive Action where
  | Clear
  | HideCursor
  | ShowCursor
  | Resize (r : Rect)
  | Render
  deriving DecidableEq

/-- The quit key pattern of main.rs line 138. -/
def isQuitKey : Key → Bool
  | Key.Char c => c == 'q'
  | Key.Other => false

/-- The refresh key pattern of main.rs line 141. -/
def isRefreshKey : Key → Bool
  | Key.Char c => c == 'r'
  | Key.Other => false

/-- Whether an event exits the loop. -/
def isQuit : Event → Bool
  | Event.Input k => isQuitKey k
  | Event.Tick => false

/-- The non-quit arms of the event match, main.rs lines 136-148: the
refresh key sets the flag, every other key and Tick change nothing. -/
def dispatch (ev : Event) (a : AppState) : AppState :=
  match ev with
  | Event.Input k => if isRefreshKey k then { a with refresh := true } else a
  | Event.Tick => a

/-- App::update_size, main.rs lines 120-126: query the size, and when
it differs from the cached one resize the backend and update the
cache. -/
def update_size (queried : Rect) (a : AppState) : List Action × AppState :=
  if queried ≠ a.term_size then
    ([Action.Resize queried], { a with term_size := queried })
  else
    ([], a)

/-- The loop of App::run, main.rs lines 132-151, over the list of
events received from the channel, each paired with the terminal size
queried at the top of that iteration.  A quit event breaks out of the
loop and the cursor is restored (line 153); every other event is
dispatched and followed by a draw.  An empty remainder models a loop
still blocked on recv. -/
def runLoop : AppState → List (Rect × Event) → Option (List Action × AppState)
  | a, [] => some ([], a)
  | a, (size, ev) :: rest =>
    let p := update_size size a
    if isQuit ev then
      some (p.1 ++ [Action.ShowCursor], p.2)
    else
      match draw (dispatch ev p.2) with
      | none => none
      | some (a2, _) =>
        match runLoop a2 rest with
        | none => none
        | some (acts, afin) => some (p.1 ++ Action.Render :: acts, afin)

/-- App::run, main.rs lines 128-154: clear and hide the cursor, then
the loop, then (only after the loop exits) show the cursor again. -/
def run (a : AppState) (events : List (Rect × Event)) : Option (List Action × AppState) :=
  match runLoop a events with
  | none => none
  | some (acts, afin) => some (Action.Clear :: Action.HideCursor :: acts, afin)

/-! Concrete inputs used by witnesses and counterexamples. -/

/-- The all-clear flag set (git2 STATUS_CURRENT). -/
def emptyStatus : Status :=
  { ignored := false, conflicted := false, wt_unreadable := false,
    index_new := false, index_modified := false, index_deleted := false,
    index_renamed := false, index_typechange := false,
    wt_new := false, wt_modified := false, wt_deleted := false,
    wt_renamed := false, wt_typechange := false }

/-- A merge-conflict entry: only the conflicted bit set. -/
def conflictedStatus : Status := { emptyStatus with conflicted := true }

/-- INDEX_MODIFIED together with WT_MODIFIED. -/
def idxWtModified : Status := { emptyStatus with index_modified := true, wt_modified := true }

/-- Only INDEX_NEW set. -/
def indexNewOnly : Status := { emptyStatus with index_new := true }

/-- Only WT_MODIFIED set. -/
def wtModifiedOnly : Status := { emptyStatus with wt_modified := true }

def rect0 : Rect := { x := 0, y := 0, width := 80, height := 24 }

def rect1 : Rect := { x := 0, y := 0, width := 100, height := 30 }

def okHeadRef : HeadRef := { target := some "0123abcd", shorthand := some "master" }

def okCommit : Commit := { id := "0123abcd", message := some "initial commit\n" }

/-- A repository with no commits yet: repo.head() fails with an
unborn-branch error. -/
def unbornHeadRepo : Repo :=
  { head := Except.error { message := "reference not found" }
  , findCommit := fun _ => Except.error { message := "object not found" }
  , branches := Except.ok []
  , statuses := Except.ok [] }

/-- A status enumeration whose second entry has an undecodable path. -/
def badPathEntries : List RawStatusEntry :=
  [ { path := some "ok.txt", status := wtModifiedOnly }
  , { path := none, status := wtModifiedOnly }
  , { path := some "later.txt", status := wtModifiedOnly } ]

/-- A healthy repository except that one status entry is malformed. -/
def badPathRepo : Repo :=
  { head := Except.ok okHeadRef
  , findCommit := fun _ => Except.ok okCommit
  , branches := Except.ok []
  , statuses := Except.ok badPathEntries }

/-- A repository whose branch enumeration fails. -/
def branchErrRepo : Repo :=
  { head := Except.ok okHeadRef
  , findCommit := fun _ => Except.ok okCommit
  , branches := Except.error { message := "could not enumerate branches" }
  , statuses := Except.ok [] }

/-- A fully healthy repository with no changes. -/
def okRepo : Repo :=
  { head := Except.ok okHeadRef
  , findCommit := fun _ => Except.ok okCommit
  , branches := Except.ok []
  , statuses := Except.ok [] }

/-- The head info the refresh derives from okRepo. -/
def okHeadInfo : HeadInfo := { ref_name := "master", hash := "0123abcd", message := "initial commit\n" }

/-- The state reached from a fresh app on okRepo after one completed
refresh. -/
def okAppRefreshed : AppState :=
  { initApp (some okRepo) rect0 with head := some okHeadInfo, refresh := false }

/-- The state a completed refresh leaves behind (the body of the let on
lines 334-341 of the embedding of draw), named so proofs can speak
about the draw result explicitly. -/
def applyRefresh (a : AppState) (r : RefreshResult) : AppState :=
  { a with
    head := r.head
    branches := r.branches
    staged := r.staged
    unstaged := r.unstaged
    untracked := r.untracked
    refresh := false }

/-! Theorems. -/

/-- C1: the spec requires that a repository with no commits yet (unborn
HEAD) must not crash the refresh, with HeadInfo left at default values
and the refresh completing for the remaining sections.  The code
instead unwraps repo.head() (main.rs line 168), which fails with an
unborn-branch error on such a repository, so the whole refresh (and the
process) panics: the refresh body evaluates to none on any repository
whose head query errs, and so does the full draw. -/
theorem unborn_head_refresh_panics :
    refreshBody unbornHeadRepo = none
    ∧ draw (initApp (some unbornHeadRepo) rect0) = none :=
  ⟨rfl, rfl⟩

/-- C2 counterexample: the conflicted-only flag set (a merge-conflict
entry) does not include the ignored flag, yet classification places it
in none of the three categories: the claim that every non-ignored
combination yields exactly one of Staged, Unstaged, Untracked is false
at this input (the all-clear combination refutes it as well). -/
theorem classify_nonignored_none_cex :
    conflictedStatus.ignored = false ∧ classify conflictedStatus = none :=
  ⟨rfl, rfl⟩

/-- C2 (amended): every combination including the ignored flag is
dropped regardless of the other bits; a combination without the
ignored flag is classified into exactly one of Staged, Unstaged,
Untracked provided at least one index-level or working-tree-level
change bit (including worktree-new) is set; combinations with none of
those bits (such as conflicted-only) are dropped. -/
theorem classify_total_amended (s : Status) :
    (s.ignored = true → classify s = none)
    ∧ (s.ignored = false → (s.indexAny || s.wtChange || s.wt_new) = true →
        (classify s).isSome = true) := by
  rcases s with ⟨ig, cf, un, f1, f2, f3, f4, f5, g1, g2, g3, g4, g5⟩
  revert ig cf un f1 f2 f3 f4 f5 g1 g2 g3 g4 g5
  decide

/-- C2 witness: applying the amended theorem to the flag set with
index-modified and worktree-modified set. -/
theorem classify_total_amended_witness : (classify idxWtModified).isSome = true :=
  (classify_total_amended idxWtModified).2 rfl rfl

/-- C5: the spec requires that a malformed individual status entry (one
whose path cannot be decoded) be skipped, with the classification pass
continuing over the remaining entries.  The code instead unwraps
status.path() (main.rs line 218), which is None for an undecodable
path, so the whole pass (and the process) panics: on an enumeration
containing such an entry the classification evaluates to none, and so
does the full draw. -/
theorem malformed_path_entry_panics :
    classifyEntries badPathEntries = none
    ∧ draw (initApp (some badPathRepo) rect0) = none :=
  ⟨rfl, rfl⟩

/-- C8: per loop iteration, update_size resizes the backend exactly
once when the queried size differs from the cached size (updating the
cache to the queried size) and zero times when they are equal (leaving
the state untouched); afterwards the cached size always equals the
queried size. -/
theorem update_size_resize_policy (queried : Rect) (a : AppState) :
    (queried = a.term_size → update_size queried a = ([], a))
    ∧ (queried ≠ a.term_size →
        update_size queried a = ([Action.Resize queried], { a with term_size := queried }))
    ∧ (update_size queried a).1.count (Action.Resize queried)
        = (if queried = a.term_size then 0 else 1)
    ∧ (update_size queried a).2.term_size = queried := by
  by_cases h : queried = a.term_size
  · subst h
    refine ⟨fun _ => ?_, fun hne => absurd rfl hne, ?_, ?_⟩ <;> simp [update_size]
  · refine ⟨fun he => absurd he h, fun _ => ?_, ?_, ?_⟩ <;> simp [update_size, h]

/-- C8 witness: a size change triggers exactly one resize and updates
the cache. -/
theorem update_size_resize_policy_witness :
    update_size rect1 (initApp none rect0)
      = ([Action.Resize rect1], { initApp none rect0 with term_size := rect1 }) :=
  (update_size_resize_policy rect1 (initApp none rect0)).2.1 (by decide)

/-- C9: an entry staged solely because of INDEX_NEW (no other
index-level bit) is classified Staged, but the staged label chain has
no branch for index-new, so the label is empty and the bare path is
printed in the staged section. -/
theorem index_new_bare_path (s : Status) (hig : s.ignored = false)
    (hnew : s.index_new = true) (hm : s.index_modified = false)
    (hd : s.index_deleted = false) (hr : s.index_renamed = false)
    (ht : s.index_typechange = false) :
    classify s = some Category.Staged
    ∧ stagedLabel s = ""
    ∧ (∀ p : String, stagedLabel s ++ p ++ "\n" = p ++ "\n")
    ∧ sectionStaged [{ path := "new.txt", status := indexNewOnly }]
        = "\nStaged changes:\n" ++ "new.txt" ++ "\n" := by
  have hlabel : stagedLabel s = "" := by
    simp [stagedLabel, hm, hd, hr, ht]
  refine ⟨?_, hlabel, ?_, ?_⟩
  · simp [classify, Status.indexAny, hig, hnew]
  · intro p
    rw [hlabel]
    rfl
  · decide

/-- Helper: each occurrence of a path in the three output lists of the
classification pass is accounted for by an occurrence of that path in
the input enumeration (every entry is pushed into at most one list). -/
theorem classifyEntries_path_count (p : String) (entries : List RawStatusEntry)
    (staged unstaged : List StatusEntry) (untracked : List String)
    (h : classifyEntries entries = some (staged, unstaged, untracked)) :
    staged.countP (fun en => en.path == p) + unstaged.countP (fun en => en.path == p)
      + untracked.count p
      ≤ entries.countP (fun en => en.path == some p) := by
  induction entries generalizing staged unstaged untracked with
  | nil =>
    simp only [classifyEntries, Option.some.injEq, Prod.mk.injEq] at h
    obtain ⟨h1, h2, h3⟩ := h
    subst h1; subst h2; subst h3
    simp
  | cons e rest ih =>
    simp only [classifyEntries] at h
    by_cases hig : e.status.ignored = true
    · rw [if_pos hig] at h
      have hle := ih _ _ _ h
      simp only [List.countP_cons]
      split <;> omega
    · rw [if_neg hig] at h
      split at h
      next => exact Option.noConfusion h
      next q hp =>
        split at h
        next => exact Option.noConfusion h
        next st2 un2 ut2 hrec =>
          have hle := ih st2 un2 ut2 hrec
          have hred : (e :: rest).countP (fun en => en.path == some p)
              = rest.countP (fun en => en.path == some p) + (if q = p then 1 else 0) := by
            simp [List.countP_cons, hp]
          rw [hred]
          by_cases h1 : e.status.indexAny = true
          · rw [if_pos h1] at h
            simp only [Option.some.injEq, Prod.mk.injEq] at h
            obtain ⟨hst, hun, hut⟩ := h
            subst hst; subst hun; subst hut
            rcases eq_or_ne q p with hqp | hqp
            · subst hqp
              simp only [List.countP_cons]
              simp
              omega
            · simp only [List.countP_cons]
              simp [hqp]
              omega
          · rw [if_neg h1] at h
            by_cases h2 : e.status.wtChange = true
            · rw [if_pos h2] at h
              simp only [Option.some.injEq, Prod.mk.injEq] at h
              obtain ⟨hst, hun, hut⟩ := h
              subst hst; subst hun; subst hut
              rcases eq_or_ne q p with hqp | hqp
              · subst hqp
                simp only [List.countP_cons]
                simp
                omega
              · simp only [List.countP_cons]
                simp [hqp]
                omega
            · rw [if_neg h2] at h
              by_cases h3 : e.status.wt_new = true
              · rw [if_pos h3] at h
                simp only [Option.some.injEq, Prod.mk.injEq] at h
                obtain ⟨hst, hun, hut⟩ := h
                subst hst; subst hun; subst hut
                rcases eq_or_ne q p with hqp | hqp
                · subst hqp
                  simp only [List.count_cons]
                  simp
                  omega
                · simp only [List.count_cons]
                  simp [hqp, Ne.symm hqp]
                  omega
              · rw [if_neg h3] at h
                simp only [Option.some.injEq, Prod.mk.injEq] at h
                obtain ⟨hst, hun, hut⟩ := h
                subst hst; subst hun; subst hut
                rcases eq_or_ne q p with hqp | hqp
                · omega
                · simp [hqp]
                  omega

/-- C3: a flag set carrying an index-level bit is classified Staged
regardless of working-tree bits; the concrete INDEX_MODIFIED plus
WT_MODIFIED entry on path a.txt lands exactly once, in the staged
list, and is rendered with the label modified: before the path; and
when a path occurs at most once in the enumeration it appears in at
most one of the three derived lists (at most once in total). -/
theorem staged_precedence (s : Status) (hig : s.ignored = false) (hidx : s.indexAny = true) :
    classify s = some Category.Staged
    ∧ classifyEntries [{ path := some "a.txt", status := idxWtModified }]
        = some ([{ path := "a.txt", status := idxWtModified }], [], [])
    ∧ stagedLabel idxWtModified ++ "a.txt" = "modified: a.txt"
    ∧ (∀ (entries : List RawStatusEntry) (staged unstaged : List StatusEntry)
        (untracked : List String) (p : String),
        classifyEntries entries = some (staged, unstaged, untracked) →
        entries.countP (fun en => en.path == some p) ≤ 1 →
        staged.countP (fun en => en.path == p) + unstaged.countP (fun en => en.path == p)
          + untracked.count p ≤ 1) := by
  refine ⟨by simp [classify, hig, hidx], by decide, by decide, ?_⟩
  intro entries st un ut p h hcnt
  exact le_trans (classifyEntries_path_count p entries st un ut h) hcnt

/-- C3 witness: applying the precedence theorem to the flag set with
both INDEX_MODIFIED and WT_MODIFIED. -/
theorem staged_precedence_witness : classify idxWtModified = some Category.Staged :=
  (staged_precedence idxWtModified rfl rfl).1

/-- C4: refresh is true at startup; whenever a repository handle is
present and a draw completes, refresh is false afterwards (the refresh
attempt, successful or with per-section failures, clears it); Tick
changes nothing; keys other than the refresh key leave the flag
unchanged; the refresh key sets it; and a draw never turns the flag
from false to true. -/
theorem needs_refresh_policy :
    (∀ (repo : Option Repo) (size : Rect), (initApp repo size).refresh = true)
    ∧ (∀ (a a2 : AppState) (out : String),
        a.repo.isSome = true → draw a = some (a2, out) → a2.refresh = false)
    ∧ (∀ a : AppState, dispatch Event.Tick a = a)
    ∧ (∀ (a : AppState) (k : Key), k ≠ Key.Char 'r' → dispatch (Event.Input k) a = a)
    ∧ (∀ a : AppState, (dispatch (Event.Input (Key.Char 'r')) a).refresh = true)
    ∧ (∀ (a a2 : AppState) (out : String),
        draw a = some (a2, out) → a2.refresh = true → a.refresh = true) := by
  refine ⟨fun _ _ => rfl, ?_, fun _ => rfl, ?_, fun _ => rfl, ?_⟩
  · intro a a2 out hsome hdraw
    obtain ⟨arepo, ahead, abr, aut, aun, ast, asz, arf⟩ := a
    cases arepo with
    | none => exact Bool.noConfusion hsome
    | some repo =>
      cases arf with
      | false =>
        injection hdraw with hpair
        injection hpair with h1 h2
        rw [← h1]
      | true =>
        cases hrb : refreshBody repo with
        | none =>
          rw [show draw (AppState.mk (some repo) ahead abr aut aun ast asz true)
                = match refreshBody repo with
                  | none => none
                  | some r => some (applyRefresh (AppState.mk (some repo) ahead abr aut aun ast asz true) r,
                      buildOutput r.output (applyRefresh (AppState.mk (some repo) ahead abr aut aun ast asz true) r))
              from rfl, hrb] at hdraw
          exact Option.noConfusion hdraw
        | some r =>
          rw [show draw (AppState.mk (some repo) ahead abr aut aun ast asz true)
                = match refreshBody repo with
                  | none => none
                  | some r => some (applyRefresh (AppState.mk (some repo) ahead abr aut aun ast asz true) r,
                      buildOutput r.output (applyRefresh (AppState.mk (some repo) ahead abr aut aun ast asz true) r))
              from rfl, hrb] at hdraw
          injection hdraw with hpair
          injection hpair with h1 h2
          rw [← h1]
          rfl
  · intro a k hk
    cases k with
    | Char c =>
      have hc : (c == 'r') = false := by
        cases hcc : c == 'r' with
        | false => rfl
        | true => exact absurd (by rw [eq_of_beq hcc]) hk
      simp [dispatch, isRefreshKey, hc]
    | Other => rfl
  · intro a a2 out hdraw h2
    obtain ⟨arepo, ahead, abr, aut, aun, ast, asz, arf⟩ := a
    cases arf with
    | true => rfl
    | false =>
      exfalso
      cases arepo with
      | none =>
        injection hdraw with hpair
        injection hpair with h1 hout
        rw [← h1] at h2
        exact Bool.noConfusion h2
      | some repo =>
        injection hdraw with hpair
        injection hpair with h1 hout
        rw [← h1] at h2
        exact Bool.noConfusion h2

/-- C4 witness: applying the clearing clause to a fresh app on a
healthy repository, whose draw completes. -/
theorem needs_refresh_policy_witness : okAppRefreshed.refresh = false :=
  needs_refresh_policy.2.1 (initApp (some okRepo) rect0) okAppRefreshed
    (buildOutput "" okAppRefreshed) rfl rfl

/-- C6: when branch enumeration errs the refresh still completes, the
branch list stays cleared and the error message becomes the diagnostic
note; when status enumeration errs the refresh still completes, the
status lists stay cleared and the error message becomes the note; and
in any completed refresh the note is appended to the frame output
right after the title while the refresh flag is cleared. -/
theorem enumeration_error_appends_note (repo : Repo) (hi : HeadInfo) (e : GitError)
    (hh : resolveHead repo = some hi) :
    (∀ (entries : List RawStatusEntry) (staged unstaged : List StatusEntry)
        (untracked : List String),
        repo.branches = Except.error e →
        repo.statuses = Except.ok entries →
        classifyEntries entries = some (staged, unstaged, untracked) →
        refreshBody repo = some { head := some hi, branches := [], staged := staged,
                                  unstaged := unstaged, untracked := untracked,
                                  output := e.message })
    ∧ (∀ (items : List (Except GitError BranchItem)) (names : List String),
        repo.branches = Except.ok items →
        collectBranches items = some names →
        repo.statuses = Except.error e →
        refreshBody repo = some { head := some hi, branches := names, staged := [],
                                  unstaged := [], untracked := [], output := e.message })
    ∧ (∀ (a : AppState) (r : RefreshResult),
        a.repo = some repo → a.refresh = true → refreshBody repo = some r →
        draw a = some (applyRefresh a r, buildOutput r.output (applyRefresh a r))
          ∧ (applyRefresh a r).refresh = false
          ∧ ∃ post, buildOutput r.output (applyRefresh a r)
              = "rngit\n" ++ (r.output ++ post)) := by
  refine ⟨?_, ?_, ?_⟩
  · intro entries st un ut hb hst hcl
    have step1 : refreshBody repo = refreshStatusPart repo hi [] e.message := by
      unfold refreshBody
      rw [hh, hb]
    have step2 : refreshStatusPart repo hi [] e.message
        = some { head := some hi, branches := [], staged := st, unstaged := un,
                 untracked := ut, output := e.message } := by
      unfold refreshStatusPart
      rw [hst]
      show ((match classifyEntries entries with
            | none => none
            | some (staged, unstaged, untracked) =>
              some { head := some hi, branches := [], staged := staged,
                     unstaged := unstaged, untracked := untracked,
                     output := e.message }) : Option RefreshResult)
          = some { head := some hi, branches := [], staged := st, unstaged := un,
                   untracked := ut, output := e.message }
      rw [hcl]
    rw [step1, step2]
  · intro items names hb hcoll hst
    have step1 : refreshBody repo = refreshStatusPart repo hi names "" := by
      unfold refreshBody
      rw [hh, hb]
      show (match collectBranches items with
            | none => none
            | some names => refreshStatusPart repo hi names "")
          = refreshStatusPart repo hi names ""
      rw [hcoll]
    have step2 : refreshStatusPart repo hi names ""
        = some { head := some hi, branches := names, staged := [], unstaged := [],
                 untracked := [], output := e.message } := by
      unfold refreshStatusPart
      rw [hst]
      rfl
    rw [step1, step2]
  · intro a r ha hrf hr
    refine ⟨?_, rfl, ?_⟩
    · obtain ⟨arepo, ahead, abr, aut, aun, ast, asz, arf⟩ := a
      have ha2 : arepo = some repo := ha
      have hrf2 : arf = true := hrf
      subst ha2
      subst hrf2
      rw [show draw (AppState.mk (some repo) ahead abr aut aun ast asz true)
            = (match refreshBody repo with
               | none => none
               | some r2 =>
                 some (applyRefresh (AppState.mk (some repo) ahead abr aut aun ast asz true) r2,
                   buildOutput r2.output
                     (applyRefresh (AppState.mk (some repo) ahead abr aut aun ast asz true) r2)))
          from rfl, hr]
    · refine ⟨sectionHead (applyRefresh a r).head
        ++ sectionBranches (applyRefresh a r).branches
        ++ sectionUntracked (applyRefresh a r).untracked
        ++ sectionUnstaged (applyRefresh a r).unstaged
        ++ sectionStaged (applyRefresh a r).staged, ?_⟩
      simp [buildOutput, String.append_assoc]

/-- C6 witness: a repository whose branch enumeration fails still
refreshes, with the message as the diagnostic note. -/
theorem enumeration_error_appends_note_witness :
    refreshBody branchErrRepo
      = some { head := some okHeadInfo, branches := [], staged := [], unstaged := [],
               untracked := [], output := "could not enumerate branches" } :=
  (enumeration_error_appends_note branchErrRepo okHeadInfo
      { message := "could not enumerate branches" } rfl).1 [] [] [] [] rfl rfl rfl

/-- Helper: one unfold step of the loop on a received event. -/
theorem runLoop_cons (a : AppState) (size : Rect) (ev : Event) (rest : List (Rect × Event)) :
    runLoop a ((size, ev) :: rest)
      = (if isQuit ev then
           some ((update_size size a).1 ++ [Action.ShowCursor], (update_size size a).2)
         else
           match draw (dispatch ev (update_size size a).2) with
           | none => none
           | some (a2, _) =>
             match runLoop a2 rest with
             | none => none
             | some (acts, afin) =>
               some ((update_size size a).1 ++ Action.Render :: acts, afin)) := rfl

/-- Helper: update_size emits either no action or one resize. -/
theorem update_size_acts (size : Rect) (a : AppState) :
    (update_size size a).1 = [] ∨ (update_size size a).1 = [Action.Resize size] := by
  unfold update_size
  split
  · exact Or.inr rfl
  · exact Or.inl rfl

/-- Helper: the actions of update_size contain no cursor restore and no
render. -/
theorem update_size_no_show_cursor (size : Rect) (a : AppState) :
    Action.ShowCursor ∉ (update_size size a).1
    ∧ (update_size size a).1.count Action.Render = 0 := by
  rcases update_size_acts size a with h | h <;> rw [h] <;> constructor <;> simp

/-- Helper: update_size touches only the cached size. -/
theorem update_size_state (size : Rect) (a : AppState) :
    (update_size size a).2.repo = a.repo ∧ (update_size size a).2.refresh = a.refresh := by
  unfold update_size
  split
  · exact ⟨rfl, rfl⟩
  · exact ⟨rfl, rfl⟩

/-- Helper: dispatch never touches the repository handle and never
clears the refresh flag. -/
theorem dispatch_state (ev : Event) (a : AppState) :
    (dispatch ev a).repo = a.repo
    ∧ (a.refresh = true → (dispatch ev a).refresh = true) := by
  cases ev with
  | Input k =>
    have hd : dispatch (Event.Input k) a
        = if isRefreshKey k then { a with refresh := true } else a := rfl
    rw [hd]
    split
    · exact ⟨rfl, fun _ => rfl⟩
    · exact ⟨rfl, fun h => h⟩
  | Tick => exact ⟨rfl, fun h => h⟩

/-- Helper: with no repository handle a draw changes nothing. -/
theorem draw_no_repo (a : AppState) (h : a.repo = none) :
    draw a = some (a, buildOutput "" a) := by
  obtain ⟨arepo, ahead, abr, aut, aun, ast, asz, arf⟩ := a
  have h2 : arepo = none := h
  subst h2
  rfl

/-- Helper: the loop on a prefix without a quit event followed by a
quit event ignores everything after the quit event, and its trace ends
in the single cursor-restore with one render per prefix event. -/
theorem runLoop_quit_cutoff (size : Rect) (post : List (Rect × Event)) :
    ∀ (pre : List (Rect × Event)) (a : AppState), (∀ x ∈ pre, isQuit x.2 = false) →
      runLoop a (pre ++ (size, Event.Input (Key.Char 'q')) :: post)
        = runLoop a (pre ++ [(size, Event.Input (Key.Char 'q'))])
      ∧ ∀ tr afin,
          runLoop a (pre ++ (size, Event.Input (Key.Char 'q')) :: post) = some (tr, afin) →
          ∃ tr0, tr = tr0 ++ [Action.ShowCursor] ∧ Action.ShowCursor ∉ tr0
            ∧ tr0.count Action.Render = pre.length := by
  intro pre
  induction pre with
  | nil =>
    intro a _
    constructor
    · rfl
    · intro tr afin h
      have h2 : some ((update_size size a).1 ++ [Action.ShowCursor], (update_size size a).2)
          = some (tr, afin) := h
      injection h2 with hpair
      injection hpair with h3 h4
      refine ⟨(update_size size a).1, h3.symm, (update_size_no_show_cursor size a).1, ?_⟩
      exact (update_size_no_show_cursor size a).2
  | cons x pre ih =>
    obtain ⟨sz2, ev2⟩ := x
    intro a hpre
    have hq : isQuit ev2 = false := hpre (sz2, ev2) (by simp)
    have hpre2 : ∀ y ∈ pre, isQuit y.2 = false := fun y hy => hpre y (by simp [hy])
    constructor
    · rw [List.cons_append, List.cons_append, runLoop_cons, runLoop_cons, hq]
      rw [if_neg Bool.false_ne_true, if_neg Bool.false_ne_true]
      cases hd : draw (dispatch ev2 (update_size sz2 a).2) with
      | none => rfl
      | some pr =>
        obtain ⟨a2, outp⟩ := pr
        show (match runLoop a2 (pre ++ (size, Event.Input (Key.Char 'q')) :: post) with
              | none => none
              | some (acts, afin) =>
                some ((update_size sz2 a).1 ++ Action.Render :: acts, afin))
            = (match runLoop a2 (pre ++ [(size, Event.Input (Key.Char 'q'))]) with
              | none => none
              | some (acts, afin) =>
                some ((update_size sz2 a).1 ++ Action.Render :: acts, afin))
        rw [(ih a2 hpre2).1]
    · intro tr afin h
      rw [List.cons_append, runLoop_cons, hq, if_neg Bool.false_ne_true] at h
      cases hd : draw (dispatch ev2 (update_size sz2 a).2) with
      | none => rw [hd] at h; exact Option.noConfusion h
      | some pr =>
        obtain ⟨a2, outp⟩ := pr
        rw [hd] at h
        have h2 : (match runLoop a2 (pre ++ (size, Event.Input (Key.Char 'q')) :: post) with
              | none => none
              | some (acts, afin) =>
                some ((update_size sz2 a).1 ++ Action.Render :: acts, afin))
            = some (tr, afin) := h
        cases hr : runLoop a2 (pre ++ (size, Event.Input (Key.Char 'q')) :: post) with
        | none => rw [hr] at h2; exact Option.noConfusion h2
        | some pr2 =>
          obtain ⟨acts, a4⟩ := pr2
          rw [hr] at h2
          injection h2 with hpair
          injection hpair with h3 h4
          obtain ⟨tr0, htr0, hnotin, hcount⟩ := (ih a2 hpre2).2 acts a4 hr
          refine ⟨(update_size sz2 a).1 ++ Action.Render :: tr0, ?_, ?_, ?_⟩
          · rw [← h3, htr0]
            simp
          · intro hmem
            rcases List.mem_append.mp hmem with hm | hm
            · exact (update_size_no_show_cursor sz2 a).1 hm
            · rcases List.mem_cons.mp hm with he | hm2
              · exact Action.noConfusion he
              · exact hnotin hm2
          · rw [List.count_append, List.count_cons]
            rw [(update_size_no_show_cursor sz2 a).2, hcount]
            simp

/-- C7: after the user presses the quit key the loop terminates: the
events after the first quit event are never processed (the run result
does not depend on them), the quit iteration does not render (one
render per earlier event only), and the cursor restore occurs exactly
once, as the last action of the trace. -/
theorem quit_terminates_loop (a : AppState) (pre post : List (Rect × Event)) (size : Rect)
    (hpre : ∀ x ∈ pre, isQuit x.2 = false) :
    run a (pre ++ (size, Event.Input (Key.Char 'q')) :: post)
      = run a (pre ++ [(size, Event.Input (Key.Char 'q'))])
    ∧ ∀ tr afin, run a (pre ++ (size, Event.Input (Key.Char 'q')) :: post) = some (tr, afin) →
        tr.count Action.ShowCursor = 1
        ∧ tr.getLast? = some Action.ShowCursor
        ∧ tr.count Action.Render = pre.length := by
  obtain ⟨hcut, hprop⟩ := runLoop_quit_cutoff size post pre a hpre
  constructor
  · unfold run
    rw [hcut]
  · intro tr afin h
    unfold run at h
    cases hr : runLoop a (pre ++ (size, Event.Input (Key.Char 'q')) :: post) with
    | none => rw [hr] at h; exact Option.noConfusion h
    | some pr =>
      obtain ⟨acts, a4⟩ := pr
      rw [hr] at h
      injection h with hpair
      injection hpair with h1 h2
      obtain ⟨tr0, htr0, hnotin, hcount⟩ := hprop acts a4 hr
      subst htr0
      rw [← h1]
      refine ⟨?_, ?_, ?_⟩
      · rw [List.count_cons, List.count_cons, List.count_append]
        rw [List.count_eq_zero.mpr hnotin]
        simp
      · have hsplit : Action.Clear :: Action.HideCursor :: (tr0 ++ [Action.ShowCursor])
            = (Action.Clear :: Action.HideCursor :: tr0) ++ [Action.ShowCursor] := by simp
        rw [hsplit, List.getLast?_concat]
      · rw [List.count_cons, List.count_cons, List.count_append, hcount]
        simp

/-- C7 witness: a single quit event on a fresh app yields the trace
with one final cursor restore and no render. -/
theorem quit_terminates_loop_witness :
    [Action.Clear, Action.HideCursor, Action.ShowCursor].count Action.ShowCursor = 1
    ∧ [Action.Clear, Action.HideCursor, Action.ShowCursor].getLast? = some Action.ShowCursor
    ∧ [Action.Clear, Action.HideCursor, Action.ShowCursor].count Action.Render = 0 :=
  (quit_terminates_loop (initApp none rect0) [] [] rect0
      (fun x hx => absurd hx (List.not_mem_nil x))).2
    [Action.Clear, Action.HideCursor, Action.ShowCursor] (initApp none rect0) rfl

/-- Helper: with no repository handle, the loop preserves the absent
handle and the set refresh flag through every iteration. -/
theorem runLoop_no_repo (events : List (Rect × Event)) :
    ∀ (a : AppState), a.repo = none → a.refresh = true →
      ∀ tr afin, runLoop a events = some (tr, afin) → afin.repo = none ∧ afin.refresh = true := by
  induction events with
  | nil =>
    intro a h1 h2 tr afin h
    injection h with hpair
    injection hpair with ha hb
    rw [← hb]
    exact ⟨h1, h2⟩
  | cons x rest ih =>
    obtain ⟨size, ev⟩ := x
    intro a h1 h2 tr afin h
    rw [runLoop_cons] at h
    by_cases hq : isQuit ev = true
    · rw [if_pos hq] at h
      injection h with hpair
      injection hpair with ha hb
      rw [← hb]
      exact ⟨(update_size_state size a).1.trans h1, (update_size_state size a).2.trans h2⟩
    · rw [if_neg hq] at h
      have hrepo2 : (dispatch ev (update_size size a).2).repo = none :=
        (dispatch_state ev _).1.trans ((update_size_state size a).1.trans h1)
      have hrf2 : (dispatch ev (update_size size a).2).refresh = true :=
        (dispatch_state ev _).2 ((update_size_state size a).2.trans h2)
      rw [draw_no_repo _ hrepo2] at h
      have h3 : (match runLoop (dispatch ev (update_size size a).2) rest with
            | none => none
            | some (acts, afin) =>
              some ((update_size size a).1 ++ Action.Render :: acts, afin))
          = some (tr, afin) := h
      cases hr : runLoop (dispatch ev (update_size size a).2) rest with
      | none => rw [hr] at h3; exact Option.noConfusion h3
      | some pr =>
        obtain ⟨acts, a4⟩ := pr
        rw [hr] at h3
        injection h3 with hpair
        injection hpair with ha hb
        rw [← hb]
        exact ih _ hrepo2 hrf2 acts a4 hr

/-- C10: when the repository handle is absent (no path given or open
failed), the refresh body that clears the flag never runs, so from
startup to the end of any run the flag stays true and the handle stays
absent. -/
theorem no_repo_refresh_never_cleared (size : Rect) (events : List (Rect × Event))
    (tr : List Action) (afin : AppState)
    (h : run (initApp none size) events = some (tr, afin)) :
    afin.repo = none ∧ afin.refresh = true := by
  unfold run at h
  cases hr : runLoop (initApp none size) events with
  | none => rw [hr] at h; exact Option.noConfusion h
  | some pr =>
    obtain ⟨acts, a4⟩ := pr
    rw [hr] at h
    injection h with hpair
    injection hpair with h1 h2
    rw [← h2]
    exact runLoop_no_repo events (initApp none size) rfl rfl acts a4 hr

/-- C10 witness: one tick on a repository-less app leaves the flag
set. -/
theorem no_repo_refresh_never_cleared_witness :
    (initApp none rect0).repo = none ∧ (initApp none rect0).refresh = true :=
  no_repo_refresh_never_cleared rect0 [(rect0, Event.Tick)]
    [Action.Clear, Action.HideCursor, Action.Render] (initApp none rect0) rfl

/-- C9 witness: the index-new-only flag set is staged with an empty
label. -/
theorem index_new_bare_path_witness :
    classify indexNewOnly = some Category.Staged ∧ stagedLabel indexNewOnly = "" :=
  ⟨(index_new_bare_path indexNewOnly rfl rfl rfl rfl rfl rfl).1,
   (index_new_bare_path indexNewOnly rfl rfl rfl rfl rfl rfl).2.1⟩

end Rnagit
